import Mathlib

/-!
Verification of the ukis-pysat raster engine specification against the
repository's code.  The repository ships `ukis_pysat/download.py` and
`tests/test_raster.py`; the raster module itself (`ukis_pysat/raster.py`)
is not part of the source tree, so its operations are modelled from the
specification (and, where the specification conflicts with the pinned
assertions of `tests/test_raster.py`, reconstructed to satisfy those
assertions, which are repository code and therefore authoritative).
All machine arithmetic is embedded over `Nat`/`Int`/`ℚ`.
-/

namespace UkisPysat

/-- Window mirrors `rasterio.windows.Window`: a rectangular pixel-space
sub-region `(col_off, row_off, width, height)`, produced by the tile
indexer and consumed by subset extraction. -/
structure Window where
  col_off : Nat
  row_off : Nat
  width : Nat
  height : Nat
deriving DecidableEq, Repr

/-- ceilNat a b is `ceil(a / b)` on naturals, the number of grid steps of
size `b` needed to cover `a` pixels. -/
def ceilNat (a b : Nat) : Nat := (a + b - 1) / b

/-- Modelled from the spec: `ukis_pysat/raster.py` (`Image.get_tiles`) is
absent from `src/`; only its test is present.  The spec §4.4 text
contradicts the pinned assertions of `tests/test_raster.py` lines
123–129, so the model is reconstructed to satisfy those assertions
(repository code is authoritative): grid offsets step by the full tile
size `(width, height)` with columns as the outer loop and rows as the
inner loop, each window is grown by `overlap` pixels on every side and
intersected with the raster extent `(0, 0, W, H)`.  `Nat` subtraction
`c - ov` clamps at zero exactly as the intersection clamps a negative
offset. -/
def get_tiles (W H tw th ov : Nat) : List Window :=
  (List.range (ceilNat W tw)).flatMap (fun i =>
    (List.range (ceilNat H th)).map (fun j =>
      let c := i * tw
      let r := j * th
      ⟨c - ov, r - ov, min (c + tw + ov) W - (c - ov), min (r + th + ov) H - (r - ov)⟩))

/-- Tile enumeration exactly as claim C2/C3 word it (the refinement
comparison definition, built from the spec's words, to be diffed against
`get_tiles`): row-major order with rows as the outer loop, grid step
`(width - overlap, height - overlap)`, the window at grid position
`(i, j)` starting at `(j*(width-overlap), i*(height-overlap))` and
covering `width × height` pixels before edge clamping. -/
def claimTiles (W H tw th ov : Nat) : List Window :=
  (List.range (ceilNat H (th - ov))).flatMap (fun i =>
    (List.range (ceilNat W (tw - ov))).map (fun j =>
      let c := j * (tw - ov)
      let r := i * (th - ov)
      ⟨c, r, min tw (W - c), min th (H - r)⟩))

/-- ratFloor computes the floor of a rational number as an integer; the
division of `Int` rounds toward negative infinity for a positive
divisor, and a rational's denominator is positive. -/
def ratFloor (q : ℚ) : ℤ := q.num / (q.den : ℤ)

/-- ratCeil computes the ceiling of a rational number. -/
def ratCeil (q : ℚ) : ℤ := -(ratFloor (-q))

/-- lowerChar maps an ASCII upper-case letter to lower case and leaves
every other character unchanged. -/
def lowerChar (c : Char) : Char :=
  if 'A' ≤ c ∧ c ≤ 'Z' then Char.ofNat (c.toNat + 32) else c

/-- lowerString lower-cases a string character by character (the model
of `str.lower()`). -/
def lowerString (s : String) : String := ⟨s.data.map lowerChar⟩

/-- Transform is the north-up affine geotransform: pixel column `c` maps
to geographic `ox + c * px`, pixel row `r` maps to `oy - r * py`. -/
structure Transform where
  ox : ℚ
  oy : ℚ
  px : ℚ
  py : ℚ
deriving DecidableEq

/-- Modelled from the spec: `ukis_pysat/raster.py` (class `Image`) is
absent from `src/`.  RasterImage owns the pixel array (bands × rows ×
columns of rational pixel values), the geotransform, and the optional
nodata sentinel; the CRS plays no role in the claims settled here and is
omitted. -/
structure RasterImage where
  W : Nat
  H : Nat
  tf : Transform
  nodata : Option ℚ
  arr : List (List (List ℚ))
deriving DecidableEq

/-- RasterImage.wf states the §3 invariant: every band has `H` rows and
every row has `W` pixels. -/
def RasterImage.wf (r : RasterImage) : Prop :=
  ∀ band ∈ r.arr, band.length = r.H ∧ ∀ row ∈ band, row.length = r.W

instance (r : RasterImage) : Decidable r.wf := by
  unfold RasterImage.wf; infer_instance

/-- pixelX maps a pixel column boundary to its geographic x coordinate
through the raster's transform. -/
def pixelX (r : RasterImage) (c : Nat) : ℚ := r.tf.ox + c * r.tf.px

/-- pixelY maps a pixel row boundary to its geographic y coordinate
through the raster's transform. -/
def pixelY (r : RasterImage) (row : Nat) : ℚ := r.tf.oy - row * r.tf.py

/-- RasterImage.bounds is the derived `(minx, miny, maxx, maxy)` extent
computed from transform and shape (§3: bounds are never stored). -/
def RasterImage.bounds (r : RasterImage) : ℚ × ℚ × ℚ × ℚ :=
  (r.tf.ox, r.tf.oy - r.H * r.tf.py, r.tf.ox + r.W * r.tf.px, r.tf.oy)

/-- Modelled from the spec: `Image.get_subset` is absent from `src/`.
It reads the pixels of all bands inside `w` (a pure slice, the raster is
not touched) and returns them with the geographic bounds obtained by
transforming the window's pixel corners through the raster's
transform. -/
def get_subset (r : RasterImage) (w : Window) :
    List (List (List ℚ)) × (ℚ × ℚ × ℚ × ℚ) :=
  (r.arr.map (fun band =>
      ((band.drop w.row_off).take w.height).map (fun row =>
        (row.drop w.col_off).take w.width)),
   (pixelX r w.col_off, pixelY r (w.row_off + w.height),
    pixelX r (w.col_off + w.width), pixelY r w.row_off))

/-- resolveNodata mirrors the §4.1 sentinel resolution: the caller's
`nodata` argument when given, else the raster's stored nodata. -/
def resolveNodata (r : RasterImage) (nodata : Option ℚ) : Option ℚ :=
  match nodata with
  | some v => some v
  | none => r.nodata

/-- validCell decides whether the pixel at `(row, col)` is valid: with
no sentinel every pixel is valid, otherwise a pixel is valid when any
band holds a value different from the sentinel (logical OR across
bands, §4.1). -/
def validCell (nd : Option ℚ) (arr : List (List (List ℚ))) (row col : Nat) : Bool :=
  match nd with
  | none => true
  | some v => arr.any (fun band => decide (((band.getD row []).getD col v) ≠ v))

/-- rowValid decides whether row `i` holds any valid pixel. -/
def rowValid (nd : Option ℚ) (r : RasterImage) (i : Nat) : Bool :=
  (List.range r.W).any (fun c => validCell nd r.arr i c)

/-- colValid decides whether column `c` holds any valid pixel. -/
def colValid (nd : Option ℚ) (r : RasterImage) (c : Nat) : Bool :=
  (List.range r.H).any (fun i => validCell nd r.arr i c)

/-- validRows lists the row indices holding valid pixels, in order. -/
def validRows (nd : Option ℚ) (r : RasterImage) : List Nat :=
  (List.range r.H).filter (fun i => rowValid nd r i)

/-- validCols lists the column indices holding valid pixels, in order. -/
def validCols (nd : Option ℚ) (r : RasterImage) : List Nat :=
  (List.range r.W).filter (fun c => colValid nd r c)

/-- Modelled from the spec: `Image.get_valid_data_bbox` is absent from
`src/`.  It resolves the nodata sentinel, scans for the minimal
row/column range of valid pixels, and converts that pixel range to
geographic coordinates; with no valid pixel it degenerates to the
transform's origin point (§4.1). -/
def get_valid_data_bbox (r : RasterImage) (nodata : Option ℚ) : ℚ × ℚ × ℚ × ℚ :=
  match (validRows (resolveNodata r nodata) r).head?,
        (validRows (resolveNodata r nodata) r).getLast?,
        (validCols (resolveNodata r nodata) r).head?,
        (validCols (resolveNodata r nodata) r).getLast? with
  | some r0, some r1, some c0, some c1 =>
      (pixelX r c0, pixelY r (r1 + 1), pixelX r (c1 + 1), pixelY r r0)
  | _, _, _, _ => (r.tf.ox, r.tf.oy, r.tf.ox, r.tf.oy)

/-- Box is an axis-aligned geographic rectangle (minx, miny, maxx,
maxy). -/
structure Box where
  minx : ℚ
  miny : ℚ
  maxx : ℚ
  maxy : ℚ
deriving DecidableEq

/-- BboxArg is the runtime type of the `bbox` argument of `mask_image`:
a 4-tuple of coordinates, a polygon (modelled by its axis-aligned
envelope, which is all the envelope-clip of §4.2 consumes), or any other
value such as the list `[1, 2, 3]` used by the repository's test. -/
inductive BboxArg where
  | tup (minx miny maxx maxy : ℚ)
  | poly (p : Box)
  | other (junk : List ℚ)
deriving DecidableEq

/-- maskEnvelope clips the raster to the pixel-grid-snapped intersection
of the box and the raster extent: the fractional pixel window of the box
is widened outward (floor/ceil), clamped to the raster, and array,
transform, and implied bounds are replaced together (§4.2,
`pad=False`). -/
def maskEnvelope (r : RasterImage) (b : Box) : RasterImage :=
  let c0 : Nat := min r.W (ratFloor ((b.minx - r.tf.ox) / r.tf.px)).toNat
  let c1 : Nat := min r.W (ratCeil ((b.maxx - r.tf.ox) / r.tf.px)).toNat
  let r0 : Nat := min r.H (ratFloor ((r.tf.oy - b.maxy) / r.tf.py)).toNat
  let r1 : Nat := min r.H (ratCeil ((r.tf.oy - b.miny) / r.tf.py)).toNat
  { W := c1 - c0
    H := r1 - r0
    tf := { ox := r.tf.ox + c0 * r.tf.px, oy := r.tf.oy - r0 * r.tf.py,
            px := r.tf.px, py := r.tf.py }
    nodata := r.nodata
    arr := r.arr.map (fun band =>
      ((band.drop r0).take (r1 - r0)).map (fun row =>
        (row.drop c0).take (c1 - c0))) }

/-- Modelled from the spec: `Image.mask_image` is absent from `src/`.
A 4-tuple is normalized into the axis-aligned box polygon first, a
polygon is clipped by its envelope, and any other value is a type error
raised before any mutation — the error is returned instead of a new
raster state, so the caller's raster is untouched.  Padding is not
modelled: no claim depends on `pad=True`. -/
def mask_image (r : RasterImage) (bbox : BboxArg) : Except String RasterImage :=
  match bbox with
  | .tup a b c d => .ok (maskEnvelope r ⟨a, b, c, d⟩)
  | .poly p => .ok (maskEnvelope r p)
  | .other _ => .error "bbox must be of type tuple or Shapely Polygon"

/-- Platform is the set of platforms exercised by the repository's
calibration and band-lookup tests. -/
inductive Platform where
  | Landsat5
  | Landsat7
  | Landsat8
  | Sentinel2
deriving DecidableEq

/-- Modelled from the spec: the per-platform wavelength-name → band-id
table of `Image._lookup_bands` is absent from `src/`.  The table is
fixed domain knowledge per platform (§4.6); the entries reproduce the
band-id strings pinned by `tests/test_raster.py` lines 115–121
(Landsat5 Blue/Green/Red → "1"/"2"/"3", Landsat8 PAN/Tirs1/Tirs2 →
"8"/"10"/"11"), keyed by lower-cased names since the test passes mixed
case. -/
def wavelengthTable (p : Platform) : List (String × String) :=
  match p with
  | .Landsat5 =>
      [("blue", "1"), ("green", "2"), ("red", "3"), ("nir", "4"),
       ("swir1", "5"), ("tirs", "6"), ("swir2", "7")]
  | .Landsat7 =>
      [("blue", "1"), ("green", "2"), ("red", "3"), ("nir", "4"),
       ("swir1", "5"), ("tirs1", "6_VCID_1"), ("tirs2", "6_VCID_2"),
       ("swir2", "7"), ("pan", "8")]
  | .Landsat8 =>
      [("aerosol", "1"), ("blue", "2"), ("green", "3"), ("red", "4"),
       ("nir", "5"), ("swir1", "6"), ("swir2", "7"), ("pan", "8"),
       ("cirrus", "9"), ("tirs1", "10"), ("tirs2", "11")]
  | .Sentinel2 => []

/-- lookupAll resolves every wavelength name through the platform table
in the order given; one unrecognized name fails the whole lookup (no
default, §7). -/
def lookupAll (p : Platform) : List String → Option (List String)
  | [] => some []
  | wl :: rest =>
    match (wavelengthTable p).lookup (lowerString wl), lookupAll p rest with
    | some b, some bs => some (b :: bs)
    | _, _ => none

/-- Modelled from the spec: `Image._lookup_bands` is absent from
`src/`.  A pure mapping from wavelength names to the platform's band-id
strings, order preserving, failing on an unrecognized name. -/
def _lookup_bands (p : Platform) (wavelengths : List String) : Option (List String) :=
  lookupAll p wavelengths

/-- defaultWavelengths lists the platform's full wavelength table keys,
used when the caller does not restrict the bands (§4.6). -/
def defaultWavelengths (p : Platform) : List String :=
  (wavelengthTable p).map Prod.fst

/-- thermalBands lists the band ids converted to brightness temperature
instead of reflectance (§4.6). -/
def thermalBands (p : Platform) : List String :=
  match p with
  | .Landsat5 => ["6"]
  | .Landsat7 => ["6_VCID_1", "6_VCID_2"]
  | .Landsat8 => ["10", "11"]
  | .Sentinel2 => []

/-- CalBand holds the per-band calibration constants of the scene
metadata record (§3): reflectance gain/offset, radiance gain/offset and
the Planck-inversion constants `k1`, `k2`. -/
structure CalBand where
  reflMult : ℚ
  reflAdd : ℚ
  radMult : ℚ
  radAdd : ℚ
  k1 : ℚ
  k2 : ℚ
deriving DecidableEq

/-- Metadata is the per-scene calibration record parsed from the MTL
file: the sine of the sun elevation and the per-band-id constants. -/
structure Metadata where
  sunElevSin : ℚ
  cal : List (String × CalBand)
deriving DecidableEq

/-- calibratePixel converts one digital number: thermal bands go
DN → radiance → brightness temperature through the Planck inversion
`k2 / log(k1 / L + 1)` (the transcendental logarithm is the abstract
parameter `lg`), reflective bands go DN → reflectance with the
sun-elevation correction (§4.6). -/
def calibratePixel (lg : ℚ → ℚ) (p : Platform) (md : Metadata) (bid : String)
    (cb : CalBand) (dn : ℚ) : ℚ :=
  if bid ∈ thermalBands p then
    cb.k2 / lg (cb.k1 / (dn * cb.radMult + cb.radAdd) + 1)
  else
    (dn * cb.reflMult + cb.reflAdd) / md.sunElevSin

/-- calibrateBand is the reference per-band calibration of the spec's
words (§4.6/§8): look up the band's constants and apply the conversion
formula to every pixel of the band.  The reference pre-calibrated
products of the test suite are binary fixtures not present in `src/`;
this pointwise map is their model. -/
def calibrateBand (lg : ℚ → ℚ) (p : Platform) (md : Metadata) (bid : String)
    (band : List (List ℚ)) : Option (List (List ℚ)) :=
  (md.cal.lookup bid).map (fun cb =>
    band.map (fun row => row.map (calibratePixel lg p md bid cb)))

/-- calibLoop walks the band-id list and the array bands in step,
replacing each band by its calibrated values (the in-place per-band
mutation loop of §4.6); a missing calibration record or a length
mismatch fails. -/
def calibLoop (lg : ℚ → ℚ) (p : Platform) (md : Metadata) :
    List String → List (List (List ℚ)) → Option (List (List (List ℚ)))
  | [], [] => some []
  | bid :: bids, band :: bands =>
    match calibrateBand lg p md bid band, calibLoop lg p md bids bands with
    | some b, some bs => some (b :: bs)
    | _, _ => none
  | _, _ => none

/-- Modelled from the spec: `Image.dn2toa` is absent from `src/`.  For
the atmospherically-corrected platform (Sentinel-2) the call is a no-op;
for DN-native platforms the scene metadata is required, the wavelength
names (the caller's, else the platform's full table) are resolved to
band ids, and every band of the array is calibrated in order.  `lg` is
the abstract logarithm used by the thermal formula. -/
def dn2toa (lg : ℚ → ℚ) (p : Platform) (md : Option Metadata)
    (wavelengths : Option (List String)) (r : RasterImage) : Except String RasterImage :=
  match p with
  | .Sentinel2 => .ok r
  | _ =>
    match md with
    | none => .error "mtl_file is required for Landsat platforms"
    | some m =>
      match _lookup_bands p (wavelengths.getD (defaultWavelengths p)) with
      | none => .error "unsupported wavelength"
      | some bids =>
        match calibLoop lg p m bids r.arr with
        | none => .error "calibration constants missing for band"
        | some arr2 => .ok { r with arr := arr2 }

/-- AoiInput is the runtime type of the `aoi` argument of
`Source._prep_aoi` in `ukis_pysat/download.py`: a vector-file path, a
bounding-box tuple of lat/lon coordinates, or any other value. -/
inductive AoiInput where
  | str (path : String)
  | tup (a b c d : ℚ)
  | other
deriving DecidableEq

/-- shapelyBox is the exterior ring of `shapely.geometry.box(a, b, c,
d)`: the counter-clockwise closed ring of the four corners of the
axis-aligned rectangle with lower-left `(a, b)` and upper-right
`(c, d)`. -/
def shapelyBox (a b c d : ℚ) : List (ℚ × ℚ) :=
  [(c, b), (c, d), (a, d), (a, b), (c, b)]

/-- _prep_aoi embeds `Source._prep_aoi` of `ukis_pysat/download.py`
lines 74–98.  File access and coordinate reprojection are external
effects, abstracted by the oracle parameters `readFirstGeometry` (the
first geometry of the vector file at a path) and `toWGS84` (reprojection
to EPSG:4326); a string is read and reprojected, a tuple becomes the box
polygon of its coordinates, anything else is the `TypeError` of line 96,
raised before any effect. -/
def _prep_aoi (readFirstGeometry : String → List (ℚ × ℚ))
    (toWGS84 : List (ℚ × ℚ) → List (ℚ × ℚ)) (aoi : AoiInput) :
    Except String (List (ℚ × ℚ)) :=
  match aoi with
  | .str path => .ok (toWGS84 (readFirstGeometry path))
  | .tup a b c d => .ok (shapelyBox a b c d)
  | .other => .error "aoi must be of type string or tuple"

/-- MetaEntry is one GeoJSON-like metadata mapping as consumed by
`Source.filter_metadata`: only its `properties` dictionary matters. -/
structure MetaEntry where
  properties : List (String × String)
deriving DecidableEq

/-- propValue looks a key up in an entry's properties dictionary. -/
def propValue (e : MetaEntry) (k : String) : Option String :=
  e.properties.lookup k

/-- filter_metadata embeds `Source.filter_metadata` of
`ukis_pysat/download.py` lines 235–247: `k = list(filter_dict.keys())`
and the loop appends `meta[i]` whenever `filter_dict[k[0]] ==
meta[i]["properties"][k[0]]`.  Only the first key is consulted; an empty
filter dictionary would fail at `k[0]` (modelled as `none`). -/
def filter_metadata (filter_dict : List (String × String)) (meta : List MetaEntry) :
    Option (List MetaEntry) :=
  match filter_dict with
  | [] => none
  | (k0, v0) :: _ =>
    some (meta.foldl (fun acc e => if propValue e k0 = some v0 then acc ++ [e] else acc) [])

/-- windowContains w x y states that pixel `(x, y)` (column `x`, row `y`)
lies inside window `w`. -/
def windowContains (w : Window) (x y : Nat) : Prop :=
  w.col_off ≤ x ∧ x < w.col_off + w.width ∧ w.row_off ≤ y ∧ y < w.row_off + w.height

instance (w : Window) (x y : Nat) : Decidable (windowContains w x y) := by
  unfold windowContains; infer_instance

/-- sampleRaster is a small concrete raster used by the witnesses: one
band, 2 × 2 pixels, unit pixel size, origin at `(0, 2)`. -/
def sampleRaster : RasterImage :=
  { W := 2, H := 2, tf := { ox := 0, oy := 2, px := 1, py := 1 },
    nodata := none, arr := [[[5, 0], [0, 0]]] }

/-- sampleMetadata is a small concrete calibration record used by the
witnesses: sun-elevation sine 1 and identity constants for band "1". -/
def sampleMetadata : Metadata :=
  { sunElevSin := 1, cal := [("1", ⟨1, 0, 1, 0, 1, 1⟩)] }

/-- sampleMeta1 is a concrete metadata entry used by the witnesses. -/
def sampleMeta1 : MetaEntry := ⟨[("producttype", "S2MSI1C"), ("id", "a")]⟩

/-- sampleMeta2 is a concrete metadata entry used by the witnesses. -/
def sampleMeta2 : MetaEntry := ⟨[("producttype", "L1TP"), ("id", "b")]⟩

/-! Helper lemmas about grid enumeration. -/

/-- every flat list built as an outer range of `n` blocks of `m` mapped
elements has the element `f i j` at flat index `i * m + j`. -/
theorem flatMapRange_getElem {α : Type} (f : Nat → Nat → α) (n m i j : Nat)
    (hi : i < n) (hj : j < m) :
    ((List.range n).flatMap (fun a => (List.range m).map (f a)))[i * m + j]? = some (f i j) := by
  induction i generalizing f n with
  | zero =>
    obtain ⟨n', rfl⟩ : ∃ n', n = n' + 1 := ⟨n - 1, by omega⟩
    rw [List.range_succ_eq_map, List.flatMap_cons, List.getElem?_append]
    simp only [Nat.zero_mul, Nat.zero_add, List.length_map, List.length_range, hj, if_pos]
    rw [List.getElem?_map, List.getElem?_range hj]
    rfl
  | succ i ih =>
    obtain ⟨n', rfl⟩ : ∃ n', n = n' + 1 := ⟨n - 1, by omega⟩
    rw [List.range_succ_eq_map, List.flatMap_cons, List.getElem?_append_right
      (by simp only [List.length_map, List.length_range]; nlinarith)]
    have harith : (i + 1) * m + j - (List.map (f 0) (List.range m)).length = i * m + j := by
      simp only [List.length_map, List.length_range]; ring_nf; omega
    rw [harith, List.flatMap_map]
    exact ih (fun a => f (a + 1)) n' (by omega)

/-- length of the same flat grid list is `n * m`. -/
theorem flatMapRange_length {α : Type} (f : Nat → Nat → α) (n m : Nat) :
    ((List.range n).flatMap (fun a => (List.range m).map (f a))).length = n * m := by
  rw [List.length_flatMap]
  have : List.map (List.length ∘ fun a => (List.range m).map (f a)) (List.range n)
      = List.replicate n m := by
    rw [show (List.length ∘ fun a => (List.range m).map (f a)) = Function.const Nat m by
      funext a; simp [Function.const]]
    rw [List.map_const, List.length_range]
  rw [this, List.sum_replicate, smul_eq_mul]

/-- ceilNat times the step covers the whole extent. -/
theorem le_ceilNat_mul (W tw : Nat) (h : 1 ≤ tw) : W ≤ ceilNat W tw * tw := by
  unfold ceilNat
  have h1 := Nat.div_add_mod (W + tw - 1) tw
  have h2 : (W + tw - 1) % tw < tw := Nat.mod_lt _ h
  rw [Nat.mul_comm]
  omega

/-- a grid offset strictly below ceilNat lands strictly inside the extent. -/
theorem mul_lt_of_lt_ceilNat {W tw i : Nat} (h : 1 ≤ tw) (hi : i < ceilNat W tw) :
    i * tw < W := by
  unfold ceilNat at hi
  have h1 : (i + 1) * tw ≤ W + tw - 1 :=
    (Nat.le_div_iff_mul_le h).1 (by omega)
  have h2 : i * tw + tw = (i + 1) * tw := by ring
  omega

/-- the grid cell of a pixel is strictly below ceilNat. -/
theorem div_lt_ceilNat {W tw x : Nat} (h : 1 ≤ tw) (hx : x < W) :
    x / tw < ceilNat W tw := by
  have hc := le_ceilNat_mul W tw h
  have := (Nat.le_div_iff_mul_le h).2 (le_refl (ceilNat W tw * tw))
  by_contra hcon
  push_neg at hcon
  have : ceilNat W tw * tw ≤ x / tw * tw := Nat.mul_le_mul_right tw hcon
  have hdm : x / tw * tw ≤ x := Nat.div_mul_le_self x tw
  omega

/-- closed form of the window at grid position `(i, j)` of `get_tiles`. -/
theorem get_tiles_getElem (W H tw th ov i j : Nat)
    (hi : i < ceilNat W tw) (hj : j < ceilNat H th) :
    (get_tiles W H tw th ov)[i * ceilNat H th + j]? =
      some ⟨i * tw - ov, j * th - ov,
        min (i * tw + tw + ov) W - (i * tw - ov),
        min (j * th + th + ov) H - (j * th - ov)⟩ := by
  unfold get_tiles
  exact flatMapRange_getElem _ _ _ i j hi hj

/-- closed form of the window at grid position `(i, j)` of `claimTiles`. -/
theorem claimTiles_getElem (W H tw th ov i j : Nat)
    (hi : i < ceilNat H (th - ov)) (hj : j < ceilNat W (tw - ov)) :
    (claimTiles W H tw th ov)[i * ceilNat W (tw - ov) + j]? =
      some ⟨j * (tw - ov), i * (th - ov),
        min tw (W - j * (tw - ov)), min th (H - i * (th - ov))⟩ := by
  unfold claimTiles
  exact flatMapRange_getElem _ _ _ i j hi hj

/-- C2 (corrected): `get_tiles` enumerates the grid with columns as the
outer loop and rows as the inner loop (column-major order), with grid
step equal to the full tile size `(width, height)`; the window at grid
position `(i, j)` appears at flat index `i * ceil(H/height) + j`, starts
at `(max(0, i*width - overlap), max(0, j*height - overlap))` and covers
`width + 2*overlap` by `height + 2*overlap` pixels before clamping to
the raster extent. -/
theorem get_tiles_column_major_enumeration (W H tw th ov i j : Nat)
    (hi : i < ceilNat W tw) (hj : j < ceilNat H th) :
    (get_tiles W H tw th ov)[i * ceilNat H th + j]? =
      some ⟨i * tw - ov, j * th - ov,
        min (i * tw + tw + ov) W - (i * tw - ov),
        min (j * th + th + ov) H - (j * th - ov)⟩ :=
  get_tiles_getElem W H tw th ov i j hi hj

/-- C2 witness: the enumeration theorem instantiated at the raster and
tile parameters pinned by the repository's test, reproducing the
asserted window 2578 = (79, 649, 7, 7). -/
theorem get_tiles_column_major_enumeration_witness :
    16 < ceilNat 679 5 ∧ 130 < ceilNat 764 5 ∧
    (get_tiles 679 764 5 5 1)[16 * ceilNat 764 5 + 130]? = some ⟨79, 649, 7, 7⟩ :=
  ⟨by decide, by decide, by
    have h := get_tiles_column_major_enumeration 679 764 5 5 1 16 130 (by decide) (by decide)
    have e : (⟨16 * 5 - 1, 130 * 5 - 1, min (16 * 5 + 5 + 1) 679 - (16 * 5 - 1),
        min (130 * 5 + 5 + 1) 764 - (130 * 5 - 1)⟩ : Window) = ⟨79, 649, 7, 7⟩ := by decide
    rw [e] at h
    exact h⟩

/-- C2 counterexample: at the exact input of the repository's test
(`get_tiles(5, 5, 1)` on the 679 × 764 raster), the window at flat index
2578 is (79, 649, 7, 7) — as `tests/test_raster.py` line 127 asserts —
whereas the claim's row-major grid of step `(width-overlap,
height-overlap)` with `width × height` windows puts (112, 60, 5, 5)
there. -/
theorem get_tiles_claim_order_counterexample :
    (get_tiles 679 764 5 5 1)[2578]? = some ⟨79, 649, 7, 7⟩ ∧
    (claimTiles 679 764 5 5 1)[2578]? = some ⟨112, 60, 5, 5⟩ ∧
    (⟨79, 649, 7, 7⟩ : Window) ≠ ⟨112, 60, 5, 5⟩ := by
  refine ⟨?_, ?_, by decide⟩
  · have h := get_tiles_getElem 679 764 5 5 1 16 130 (by decide) (by decide)
    have e1 : 16 * ceilNat 764 5 + 130 = 2578 := by decide
    have e2 : (⟨16 * 5 - 1, 130 * 5 - 1, min (16 * 5 + 5 + 1) 679 - (16 * 5 - 1),
        min (130 * 5 + 5 + 1) 764 - (130 * 5 - 1)⟩ : Window) = ⟨79, 649, 7, 7⟩ := by decide
    rw [e1, e2] at h
    exact h
  · have h := claimTiles_getElem 679 764 5 5 1 15 28 (by decide) (by decide)
    have e1 : 15 * ceilNat 679 (5 - 1) + 28 = 2578 := by decide
    have e2 : (⟨28 * (5 - 1), 15 * (5 - 1), min 5 (679 - 28 * (5 - 1)),
        min 5 (764 - 15 * (5 - 1))⟩ : Window) = ⟨112, 60, 5, 5⟩ := by decide
    rw [e1, e2] at h
    exact h

/-- C3 (corrected): the windows of `get_tiles` cover every pixel of the
raster with no gaps, never reach outside the raster, and their number is
`ceil(W / width) * ceil(H / height)` — the divisor is the full tile
size, not `width - overlap` as the claim states. -/
theorem get_tiles_coverage_and_count (W H tw th ov : Nat)
    (htw : 1 ≤ tw) (hth : 1 ≤ th) :
    (∀ x y, x < W → y < H → ∃ w ∈ get_tiles W H tw th ov, windowContains w x y) ∧
    (∀ w ∈ get_tiles W H tw th ov, ∀ x y, windowContains w x y → x < W ∧ y < H) ∧
    (get_tiles W H tw th ov).length = ceilNat W tw * ceilNat H th := by
  refine ⟨?_, ?_, ?_⟩
  · intro x y hx hy
    refine ⟨⟨x / tw * tw - ov, y / th * th - ov,
      min (x / tw * tw + tw + ov) W - (x / tw * tw - ov),
      min (y / th * th + th + ov) H - (y / th * th - ov)⟩, ?_, ?_⟩
    · unfold get_tiles
      simp only [List.mem_flatMap, List.mem_map, List.mem_range]
      exact ⟨x / tw, div_lt_ceilNat htw hx, y / th, div_lt_ceilNat hth hy, rfl⟩
    · have h1 : x / tw * tw ≤ x := Nat.div_mul_le_self x tw
      have h2 := Nat.div_add_mod x tw
      have h3 : x % tw < tw := Nat.mod_lt x htw
      have h4 : tw * (x / tw) = x / tw * tw := Nat.mul_comm _ _
      have h5 : y / th * th ≤ y := Nat.div_mul_le_self y th
      have h6 := Nat.div_add_mod y th
      have h7 : y % th < th := Nat.mod_lt y hth
      have h8 : th * (y / th) = y / th * th := Nat.mul_comm _ _
      unfold windowContains
      dsimp only
      omega
  · intro w hw x y hcont
    unfold get_tiles at hw
    simp only [List.mem_flatMap, List.mem_map, List.mem_range] at hw
    obtain ⟨i, hi, j, hj, hww⟩ := hw
    subst hww
    have h1 : i * tw < W := mul_lt_of_lt_ceilNat htw hi
    have h2 : j * th < H := mul_lt_of_lt_ceilNat hth hj
    unfold windowContains at hcont
    dsimp only at hcont
    omega
  · unfold get_tiles
    exact flatMapRange_length _ _ _

/-- C3 witness: coverage and count theorem at the concrete parameters
`W = 4, H = 3, width = 2, height = 1, overlap = 0`. -/
theorem get_tiles_coverage_and_count_witness :
    1 ≤ 2 ∧ 1 ≤ 1 ∧
    ((∀ x y, x < 4 → y < 3 → ∃ w ∈ get_tiles 4 3 2 1 0, windowContains w x y) ∧
     (∀ w ∈ get_tiles 4 3 2 1 0, ∀ x y, windowContains w x y → x < 4 ∧ y < 3) ∧
     (get_tiles 4 3 2 1 0).length = ceilNat 4 2 * ceilNat 3 1) :=
  ⟨by decide, by decide, get_tiles_coverage_and_count 4 3 2 1 0 (by decide) (by decide)⟩

/-- C3 counterexample: at the test's input the number of windows is
20808 = ceil(679/5) * ceil(764/5) — matching the final index 20807
asserted by `tests/test_raster.py` line 129 — and not
ceil(679/(5-1)) * ceil(764/(5-1)) = 32470 as the claim's formula
requires. -/
theorem get_tiles_claim_count_counterexample :
    (get_tiles 679 764 5 5 1).length = 20808 ∧
    ceilNat 679 (5 - 1) * ceilNat 764 (5 - 1) = 32470 ∧
    (20808 : Nat) ≠ 32470 := by
  refine ⟨?_, by decide, by decide⟩
  have h : (get_tiles 679 764 5 5 1).length = ceilNat 679 5 * ceilNat 764 5 := by
    unfold get_tiles
    exact flatMapRange_length _ _ _
  rw [h]
  decide

/-- ratFloor of zero is zero. -/
theorem ratFloor_zero : ratFloor 0 = 0 := by decide

/-- ratCeil of a natural number is itself. -/
theorem ratCeil_natCast (n : ℕ) : ratCeil ((n : ℚ)) = (n : ℤ) := by
  unfold ratCeil ratFloor
  rw [Rat.neg_num, Rat.neg_den, Rat.num_natCast, Rat.den_natCast, Nat.cast_one, Int.ediv_one]
  simp

/-- masking the raster by the box of its own bounds is the identity. -/
theorem maskEnvelope_own_bounds (r : RasterImage) (hwf : r.wf)
    (hpx : 0 < r.tf.px) (hpy : 0 < r.tf.py) :
    maskEnvelope r ⟨r.tf.ox, r.tf.oy - r.H * r.tf.py, r.tf.ox + r.W * r.tf.px, r.tf.oy⟩ = r := by
  have hpx' : r.tf.px ≠ 0 := ne_of_gt hpx
  have hpy' : r.tf.py ≠ 0 := ne_of_gt hpy
  have hc0 : (ratFloor ((r.tf.ox - r.tf.ox) / r.tf.px)).toNat = 0 := by
    rw [sub_self, zero_div, ratFloor_zero, Int.toNat_zero]
  have hc1 : (ratCeil ((r.tf.ox + (r.W : ℚ) * r.tf.px - r.tf.ox) / r.tf.px)).toNat = r.W := by
    rw [add_sub_cancel_left, mul_div_cancel_right₀ _ hpx', ratCeil_natCast, Int.toNat_natCast]
  have hr0 : (ratFloor ((r.tf.oy - r.tf.oy) / r.tf.py)).toNat = 0 := by
    rw [sub_self, zero_div, ratFloor_zero, Int.toNat_zero]
  have hr1 : (ratCeil ((r.tf.oy - (r.tf.oy - (r.H : ℚ) * r.tf.py)) / r.tf.py)).toNat = r.H := by
    rw [sub_sub_cancel, mul_div_cancel_right₀ _ hpy', ratCeil_natCast, Int.toNat_natCast]
  have harr : r.arr.map (fun band =>
      (band.take r.H).map (fun row => row.take r.W)) = r.arr := by
    conv_rhs => rw [← List.map_id r.arr]
    apply List.map_congr_left
    intro band hband
    obtain ⟨hlen, hrows⟩ := hwf band hband
    rw [List.take_of_length_le (le_of_eq hlen)]
    have : band.map (fun row => row.take r.W) = band.map id := by
      apply List.map_congr_left
      intro row hrow
      exact List.take_of_length_le (le_of_eq (hrows row hrow))
    rw [this, List.map_id]
    rfl
  simp only [maskEnvelope, hc0, hc1, hr0, hr1, Nat.min_zero, min_self, Nat.sub_zero,
    List.drop_zero, Nat.cast_zero, zero_mul, add_zero, sub_zero]
  rw [harr]

/-- C7 (confirmed): applying `mask_image` with a bbox — given as the
4-tuple or as the polygon — whose bounds equal the raster's current
extent is a no-op: array, transform, nodata and therefore the derived
bounds are all unchanged. -/
theorem mask_image_own_extent_noop (r : RasterImage) (hwf : r.wf)
    (hpx : 0 < r.tf.px) (hpy : 0 < r.tf.py) :
    mask_image r (BboxArg.tup r.tf.ox (r.tf.oy - r.H * r.tf.py)
        (r.tf.ox + r.W * r.tf.px) r.tf.oy) = .ok r ∧
    mask_image r (BboxArg.poly ⟨r.tf.ox, r.tf.oy - r.H * r.tf.py,
        r.tf.ox + r.W * r.tf.px, r.tf.oy⟩) = .ok r := by
  constructor
  · show Except.ok (maskEnvelope r _) = Except.ok r
    rw [maskEnvelope_own_bounds r hwf hpx hpy]
  · show Except.ok (maskEnvelope r _) = Except.ok r
    rw [maskEnvelope_own_bounds r hwf hpx hpy]

/-- C7 witness: the no-op theorem instantiated at the concrete sample
raster, whose bounds are `(0, 0, 2, 2)`. -/
theorem mask_image_own_extent_noop_witness :
    sampleRaster.wf ∧ 0 < sampleRaster.tf.px ∧ 0 < sampleRaster.tf.py ∧
    (mask_image sampleRaster (BboxArg.tup sampleRaster.tf.ox
        (sampleRaster.tf.oy - sampleRaster.H * sampleRaster.tf.py)
        (sampleRaster.tf.ox + sampleRaster.W * sampleRaster.tf.px)
        sampleRaster.tf.oy) = .ok sampleRaster ∧
     mask_image sampleRaster (BboxArg.poly ⟨sampleRaster.tf.ox,
        sampleRaster.tf.oy - sampleRaster.H * sampleRaster.tf.py,
        sampleRaster.tf.ox + sampleRaster.W * sampleRaster.tf.px,
        sampleRaster.tf.oy⟩) = .ok sampleRaster) :=
  ⟨by decide, by decide, by decide,
   mask_image_own_extent_noop sampleRaster (by decide) (by decide) (by decide)⟩

/-- C6 (confirmed): for every input that is neither a 4-tuple nor a
polygon, `mask_image` returns the type error of the repository's test
message and produces no new raster state: the caller's array, transform,
and bounds are untouched because no mutated raster is committed. -/
theorem mask_image_type_error (r : RasterImage) (junk : List ℚ) :
    mask_image r (BboxArg.other junk) =
      Except.error "bbox must be of type tuple or Shapely Polygon" := rfl

/-- C4 (confirmed): `get_subset` returns, for a window lying inside a
well-formed raster, one slice per band whose shape is exactly the
window's `(height, width)`, together with the geographic bounds of the
window's pixel corners under the raster's transform; the raster itself
is not modified (the operation is a pure function of `r`). -/
theorem get_subset_shape_and_bounds (r : RasterImage) (w : Window) (hwf : r.wf)
    (hc : w.col_off + w.width ≤ r.W) (hr : w.row_off + w.height ≤ r.H) :
    (get_subset r w).1.length = r.arr.length ∧
    (∀ band ∈ (get_subset r w).1,
      band.length = w.height ∧ ∀ row ∈ band, row.length = w.width) ∧
    (get_subset r w).2 = (r.tf.ox + w.col_off * r.tf.px,
      r.tf.oy - (w.row_off + w.height) * r.tf.py,
      r.tf.ox + (w.col_off + w.width) * r.tf.px,
      r.tf.oy - w.row_off * r.tf.py) := by
  refine ⟨List.length_map _ _, ?_, ?_⟩
  · intro band hband
    simp only [get_subset, List.mem_map] at hband
    obtain ⟨band0, hband0, rfl⟩ := hband
    obtain ⟨hlen, hrows⟩ := hwf band0 hband0
    constructor
    · rw [List.length_map, List.length_take, List.length_drop, hlen]
      omega
    · intro row hrow
      simp only [List.mem_map] at hrow
      obtain ⟨row0, hrow0, rfl⟩ := hrow
      have hrow0mem : row0 ∈ band0 :=
        List.mem_of_mem_drop (List.mem_of_mem_take hrow0)
      rw [List.length_take, List.length_drop, hrows row0 hrow0mem]
      omega
  · show (pixelX r w.col_off, pixelY r (w.row_off + w.height),
      pixelX r (w.col_off + w.width), pixelY r w.row_off) = _
    unfold pixelX pixelY
    push_cast
    rfl

/-- C4 witness: subset extraction at the window `(1, 0, 1, 2)` of the
sample raster. -/
theorem get_subset_shape_and_bounds_witness :
    sampleRaster.wf ∧ (1 : Nat) + 1 ≤ sampleRaster.W ∧ (0 : Nat) + 2 ≤ sampleRaster.H ∧
    ((get_subset sampleRaster ⟨1, 0, 1, 2⟩).1.length = sampleRaster.arr.length ∧
     (∀ band ∈ (get_subset sampleRaster ⟨1, 0, 1, 2⟩).1,
       band.length = 2 ∧ ∀ row ∈ band, row.length = 1) ∧
     (get_subset sampleRaster ⟨1, 0, 1, 2⟩).2 = (sampleRaster.tf.ox + (1 : Nat) * sampleRaster.tf.px,
       sampleRaster.tf.oy - ((0 : Nat) + 2) * sampleRaster.tf.py,
       sampleRaster.tf.ox + ((1 : Nat) + 1) * sampleRaster.tf.px,
       sampleRaster.tf.oy - (0 : Nat) * sampleRaster.tf.py)) :=
  ⟨by decide, by decide, by decide,
   get_subset_shape_and_bounds sampleRaster ⟨1, 0, 1, 2⟩ (by decide) (by decide) (by decide)⟩

/-- with no sentinel every row index is valid. -/
theorem validRows_none (r : RasterImage) (hW : 1 ≤ r.W) :
    validRows none r = List.range r.H := by
  apply List.filter_eq_self.2
  intro a _
  exact List.any_eq_true.2 ⟨0, List.mem_range.2 (by omega), rfl⟩

/-- with no sentinel every column index is valid. -/
theorem validCols_none (r : RasterImage) (hH : 1 ≤ r.H) :
    validCols none r = List.range r.W := by
  apply List.filter_eq_self.2
  intro a _
  exact List.any_eq_true.2 ⟨0, List.mem_range.2 (by omega), rfl⟩

/-- C5 (confirmed): `get_valid_data_bbox` uses the caller-supplied
nodata when given (the stored nodata is never consulted), falls back to
the raster's stored nodata otherwise, and when neither exists treats all
pixels as valid, so the result is the full raster bounds. -/
theorem get_valid_data_bbox_nodata_resolution (r : RasterImage) (v w : ℚ)
    (hW : 1 ≤ r.W) (hH : 1 ≤ r.H) :
    get_valid_data_bbox r (some v) = get_valid_data_bbox { r with nodata := none } (some v) ∧
    (r.nodata = some w → get_valid_data_bbox r none = get_valid_data_bbox r (some w)) ∧
    (r.nodata = none → get_valid_data_bbox r none = r.bounds) := by
  refine ⟨rfl, ?_, ?_⟩
  · intro h
    unfold get_valid_data_bbox
    rw [show resolveNodata r none = resolveNodata r (some w) from by
      simp [resolveNodata, h]]
  · intro h
    have hnd : resolveNodata r none = none := by simp [resolveNodata, h]
    have h1 : (List.range r.H).head? = some 0 := by
      rw [List.head?_range, if_neg (by omega)]
    have h2 : (List.range r.H).getLast? = some (r.H - 1) := by
      rw [List.getLast?_eq_getElem?, List.length_range]
      exact List.getElem?_range (by omega)
    have h3 : (List.range r.W).head? = some 0 := by
      rw [List.head?_range, if_neg (by omega)]
    have h4 : (List.range r.W).getLast? = some (r.W - 1) := by
      rw [List.getLast?_eq_getElem?, List.length_range]
      exact List.getElem?_range (by omega)
    unfold get_valid_data_bbox
    rw [hnd, validRows_none r hW, validCols_none r hH, h1, h2, h3, h4]
    dsimp only
    rw [show r.H - 1 + 1 = r.H by omega, show r.W - 1 + 1 = r.W by omega]
    unfold pixelX pixelY RasterImage.bounds
    simp

/-- C5 witness: the nodata-resolution theorem instantiated at the
sample raster (whose stored nodata is `none`) with caller value 0 and
stored-value stand-in 1. -/
theorem get_valid_data_bbox_nodata_resolution_witness :
    1 ≤ sampleRaster.W ∧ 1 ≤ sampleRaster.H ∧
    (get_valid_data_bbox sampleRaster (some 0) =
        get_valid_data_bbox { sampleRaster with nodata := none } (some 0) ∧
     (sampleRaster.nodata = some 1 →
        get_valid_data_bbox sampleRaster none = get_valid_data_bbox sampleRaster (some 1)) ∧
     (sampleRaster.nodata = none →
        get_valid_data_bbox sampleRaster none = sampleRaster.bounds)) :=
  ⟨by decide, by decide,
   get_valid_data_bbox_nodata_resolution sampleRaster 0 1 (by decide) (by decide)⟩

/-- a successful lookupAll resolves exactly the given names, in their
order, through the platform table. -/
theorem lookupAll_spec (p : Platform) :
    ∀ names ids, lookupAll p names = some ids →
      ids.length = names.length ∧
      ∀ i (h1 : i < names.length) (h2 : i < ids.length),
        (wavelengthTable p).lookup (lowerString (names.get ⟨i, h1⟩)) = some (ids.get ⟨i, h2⟩) := by
  intro names
  induction names with
  | nil =>
    intro ids h
    unfold lookupAll at h
    obtain rfl : ([] : List String) = ids := by simpa using h
    exact ⟨rfl, fun i h1 _ => absurd h1 (by simp)⟩
  | cons wl rest ih =>
    intro ids h
    unfold lookupAll at h
    cases hb : (wavelengthTable p).lookup (lowerString wl) with
    | none => rw [hb] at h; simp at h
    | some b =>
      rw [hb] at h
      cases hr : lookupAll p rest with
      | none => rw [hr] at h; simp at h
      | some bs =>
        rw [hr] at h
        obtain rfl : b :: bs = ids := by simpa using h
        obtain ⟨hlen, hidx⟩ := ih bs hr
        refine ⟨by simp [hlen], ?_⟩
        intro i h1 h2
        cases i with
        | zero => simpa using hb
        | succ n => exact hidx n (by simpa using h1) (by simpa using h2)

/-- C8 (confirmed): `_lookup_bands` reproduces the exact band-id strings
in the order of the given wavelength names — Landsat5 Blue/Green/Red is
"1"/"2"/"3" and Landsat8 PAN/Tirs1/Tirs2 is "8"/"10"/"11" as the test
pins — an unrecognized name fails the lookup instead of defaulting, and
every successful lookup is the pure per-platform table applied
name-for-name in order. -/
theorem lookup_bands_table :
    _lookup_bands .Landsat5 ["Blue", "Green", "Red"] = some ["1", "2", "3"] ∧
    _lookup_bands .Landsat8 ["PAN", "Tirs1", "Tirs2"] = some ["8", "10", "11"] ∧
    _lookup_bands .Landsat5 ["Coastal"] = none ∧
    ∀ p names ids, _lookup_bands p names = some ids →
      ids.length = names.length ∧
      ∀ i (h1 : i < names.length) (h2 : i < ids.length),
        (wavelengthTable p).lookup (lowerString (names.get ⟨i, h1⟩)) = some (ids.get ⟨i, h2⟩) :=
  ⟨by decide, by decide, by decide, fun p => lookupAll_spec p⟩

/-- C8 witness: the order-preservation part applied to the pinned
Landsat5 lookup. -/
theorem lookup_bands_table_witness :
    _lookup_bands .Landsat5 ["Blue", "Green", "Red"] = some ["1", "2", "3"] ∧
    (["1", "2", "3"] : List String).length = (["Blue", "Green", "Red"] : List String).length :=
  ⟨(lookup_bands_table).1,
   ((lookup_bands_table).2.2.2 .Landsat5 ["Blue", "Green", "Red"] ["1", "2", "3"]
     (lookup_bands_table).1).1⟩

/-- the calibration loop succeeds on matching band lists with complete
calibration records and computes exactly the per-band reference
calibration, band for band. -/
theorem calibLoop_spec (lg : ℚ → ℚ) (p : Platform) (md : Metadata) :
    ∀ bids arr, bids.length = arr.length →
      (∀ bid ∈ bids, (md.cal.lookup bid).isSome) →
      ∃ out, calibLoop lg p md bids arr = some out ∧ out.length = arr.length ∧
        ∀ i (h1 : i < bids.length) (h2 : i < arr.length) (h3 : i < out.length),
          calibrateBand lg p md (bids.get ⟨i, h1⟩) (arr.get ⟨i, h2⟩) = some (out.get ⟨i, h3⟩) := by
  intro bids
  induction bids with
  | nil =>
    intro arr hlen _
    obtain rfl : arr = [] := by
      cases arr with
      | nil => rfl
      | cons a l => simp at hlen
    exact ⟨[], rfl, rfl, fun i h1 _ _ => absurd h1 (by simp)⟩
  | cons bid bids ih =>
    intro arr hlen hcal
    cases arr with
    | nil => simp at hlen
    | cons band bands =>
      have hhead : (md.cal.lookup bid).isSome := hcal bid (by simp)
      obtain ⟨cb, hcb⟩ := Option.isSome_iff_exists.1 hhead
      obtain ⟨out, hout, holen, hoidx⟩ := ih bands (by simpa using hlen)
        (fun b hb => hcal b (by simp [hb]))
      refine ⟨band.map (fun row => row.map (calibratePixel lg p md bid cb)) :: out, ?_, ?_, ?_⟩
      · unfold calibLoop
        rw [show calibrateBand lg p md bid band =
          some (band.map (fun row => row.map (calibratePixel lg p md bid cb))) from by
            unfold calibrateBand; rw [hcb]; rfl]
        rw [hout]
      · simp [holen]
      · intro i h1 h2 h3
        cases i with
        | zero =>
          show calibrateBand lg p md bid band = _
          unfold calibrateBand
          rw [hcb]
          rfl
        | succ n =>
          exact hoidx n (by simpa using h1) (by simpa using h2) (by simpa using h3)

/-- C1 (confirmed): for the atmospherically-corrected platform the
calibration is a no-op, and for every DN-native platform `dn2toa`
succeeds on a scene whose band lookups and calibration records resolve,
replacing the pixel array band-for-band with exactly the reference
calibration (the spec's per-band conversion formulas applied pointwise),
leaving geometry untouched. -/
theorem dn2toa_calibration (lg : ℚ → ℚ) :
    (∀ md wls r, dn2toa lg .Sentinel2 md wls r = .ok r) ∧
    (∀ p md wls r bids, p ≠ .Sentinel2 →
      _lookup_bands p (wls.getD (defaultWavelengths p)) = some bids →
      bids.length = r.arr.length →
      (∀ bid ∈ bids, (md.cal.lookup bid).isSome) →
      ∃ arr2, dn2toa lg p (some md) wls r = .ok { r with arr := arr2 } ∧
        arr2.length = r.arr.length ∧
        ∀ i (h1 : i < bids.length) (h2 : i < r.arr.length) (h3 : i < arr2.length),
          calibrateBand lg p md (bids.get ⟨i, h1⟩) (r.arr.get ⟨i, h2⟩) =
            some (arr2.get ⟨i, h3⟩)) := by
  constructor
  · intro md wls r
    rfl
  · intro p md wls r bids hp hlb hlen hcal
    obtain ⟨out, hout, holen, hoidx⟩ := calibLoop_spec lg p md bids r.arr hlen hcal
    refine ⟨out, ?_, holen, hoidx⟩
    cases p with
    | Sentinel2 => exact absurd rfl hp
    | Landsat5 => simp only [dn2toa, hlb, hout]
    | Landsat7 => simp only [dn2toa, hlb, hout]
    | Landsat8 => simp only [dn2toa, hlb, hout]

/-- C1 witness: Sentinel-2 no-op on the sample raster, and a Landsat5
calibration of the sample raster restricted to the Blue band with the
sample metadata record. -/
theorem dn2toa_calibration_witness :
    (dn2toa id .Sentinel2 none none sampleRaster = .ok sampleRaster) ∧
    Platform.Landsat5 ≠ Platform.Sentinel2 ∧
    _lookup_bands .Landsat5 ((some ["Blue"]).getD (defaultWavelengths .Landsat5)) = some ["1"] ∧
    (["1"] : List String).length = sampleRaster.arr.length ∧
    (∀ bid ∈ (["1"] : List String), (sampleMetadata.cal.lookup bid).isSome) ∧
    (∃ arr2, dn2toa id .Landsat5 (some sampleMetadata) (some ["Blue"]) sampleRaster =
        .ok { sampleRaster with arr := arr2 } ∧
      arr2.length = sampleRaster.arr.length ∧
      ∀ i (h1 : i < (["1"] : List String).length) (h2 : i < sampleRaster.arr.length)
          (h3 : i < arr2.length),
        calibrateBand id .Landsat5 sampleMetadata ((["1"] : List String).get ⟨i, h1⟩)
          (sampleRaster.arr.get ⟨i, h2⟩) = some (arr2.get ⟨i, h3⟩)) :=
  ⟨(dn2toa_calibration id).1 none none sampleRaster, by decide, by decide, by decide, by decide,
   (dn2toa_calibration id).2 .Landsat5 sampleMetadata (some ["Blue"]) sampleRaster ["1"]
     (by decide) (by decide) (by decide) (by decide)⟩

/-- C9 (confirmed): `_prep_aoi` maps a 4-tuple to the axis-aligned box
polygon of exactly those coordinates (every ring vertex is built from
the four inputs and all four corners occur), a string to the
EPSG:4326-reprojected first geometry of the vector file at that path,
and any other input to the `TypeError` of line 96 with no side
effects — the error branch consults neither oracle. -/
theorem prep_aoi_dispatch (f : String → List (ℚ × ℚ)) (g : List (ℚ × ℚ) → List (ℚ × ℚ)) :
    (∀ a b c d : ℚ, _prep_aoi f g (.tup a b c d) = .ok (shapelyBox a b c d) ∧
      (∀ q ∈ shapelyBox a b c d, (q.1 = a ∨ q.1 = c) ∧ (q.2 = b ∨ q.2 = d)) ∧
      (c, b) ∈ shapelyBox a b c d ∧ (c, d) ∈ shapelyBox a b c d ∧
      (a, d) ∈ shapelyBox a b c d ∧ (a, b) ∈ shapelyBox a b c d) ∧
    (∀ s, _prep_aoi f g (.str s) = .ok (g (f s))) ∧
    (_prep_aoi f g .other = .error "aoi must be of type string or tuple") := by
  refine ⟨?_, fun s => rfl, rfl⟩
  intro a b c d
  refine ⟨rfl, ?_, by simp [shapelyBox], by simp [shapelyBox],
    by simp [shapelyBox], by simp [shapelyBox]⟩
  intro q hq
  simp only [shapelyBox, List.mem_cons, List.not_mem_nil, or_false] at hq
  rcases hq with rfl | rfl | rfl | rfl | rfl
  · exact ⟨Or.inr rfl, Or.inl rfl⟩
  · exact ⟨Or.inr rfl, Or.inr rfl⟩
  · exact ⟨Or.inl rfl, Or.inr rfl⟩
  · exact ⟨Or.inl rfl, Or.inl rfl⟩
  · exact ⟨Or.inr rfl, Or.inl rfl⟩

/-- accumulating conditional append over a list is the accumulator
followed by the filtered list. -/
theorem foldl_filter_append {α : Type} (P : α → Prop) [DecidablePred P] :
    ∀ (l acc : List α),
      l.foldl (fun acc e => if P e then acc ++ [e] else acc) acc
        = acc ++ l.filter (fun e => decide (P e)) := by
  intro l
  induction l with
  | nil => intro acc; simp
  | cons a t ih =>
    intro acc
    rw [List.foldl_cons]
    by_cases hpa : P a
    · have hf : List.filter (fun e => decide (P e)) (a :: t)
          = a :: List.filter (fun e => decide (P e)) t := by
        simp [List.filter_cons, hpa]
      rw [if_pos hpa, ih, hf, List.append_assoc]
      rfl
    · have hf : List.filter (fun e => decide (P e)) (a :: t)
          = List.filter (fun e => decide (P e)) t := by
        simp [List.filter_cons, hpa]
      rw [if_neg hpa, ih, hf]

/-- C10 (confirmed): `filter_metadata` consults only the first key of
the filter dictionary: it returns exactly the entries of `meta`, in
their original order, whose properties value under that key equals the
filter value, and any further keys of the dictionary are ignored. -/
theorem filter_metadata_first_key (k0 v0 : String) (rest : List (String × String))
    (meta : List MetaEntry) (_hkeys : ∀ e ∈ meta, (propValue e k0).isSome) :
    filter_metadata ((k0, v0) :: rest) meta =
      some (meta.filter (fun e => decide (propValue e k0 = some v0))) ∧
    filter_metadata ((k0, v0) :: rest) meta = filter_metadata [(k0, v0)] meta := by
  constructor
  · show some (meta.foldl
        (fun acc e => if propValue e k0 = some v0 then acc ++ [e] else acc) []) = _
    rw [foldl_filter_append (fun e => propValue e k0 = some v0) meta [], List.nil_append]
  · rfl

/-- C10 witness: filtering two concrete entries on the first key
`producttype`, with a second dictionary key present and ignored. -/
theorem filter_metadata_first_key_witness :
    (∀ e ∈ [sampleMeta1, sampleMeta2], (propValue e "producttype").isSome) ∧
    (filter_metadata [("producttype", "S2MSI1C"), ("id", "zzz")] [sampleMeta1, sampleMeta2] =
      some ([sampleMeta1, sampleMeta2].filter
        (fun e => decide (propValue e "producttype" = some "S2MSI1C"))) ∧
     filter_metadata [("producttype", "S2MSI1C"), ("id", "zzz")] [sampleMeta1, sampleMeta2] =
      filter_metadata [("producttype", "S2MSI1C")] [sampleMeta1, sampleMeta2]) :=
  ⟨by decide,
   filter_metadata_first_key "producttype" "S2MSI1C" [("id", "zzz")]
     [sampleMeta1, sampleMeta2] (by decide)⟩

end UkisPysat
